import Mathlib

/-!
# HoopIq — Stats Aggregation & Prediction Engine, shallow embedding

A shallow embedding in Lean 4 of the engine parts of the HoopIq (nba-zone)
repository, together with theorems settling the specification claims.

Sources embedded:
* `frontend/src/pages/PredictionsPage.tsx` — `calculatePrediction`, the
  stats-map construction and the `predictedWinner` selection.
* `frontend/src/pages/TeamDetailPage.tsx` — `fetchPlayers` (roster fetch and
  sort).
* `frontend/src/pages/TeamsPage.tsx` — `filteredTeams` (team query filter).
* `backend .../controller/ScheduleController.java` — snapshot endpoints
  (`getUpcomingGames`, `getTeamStats`, `getPlayerStats`, `getPlayersByTeam`)
  and the CSV parser `parseCsvToList`.

Modelling conventions: JavaScript/Java numbers are idealized as exact
rationals (`ℚ`); machine `long` range checks are kept explicitly where the
source performs them.  String primitives (`toLowerCase`, `toUpperCase`,
`includes`, `contains`, `trim`, `split`) are re-implemented over `List Char`
so that every definition reduces in the kernel; they implement the ASCII
case-folding the Lean `Char.toLower`/`Char.toUpper` functions provide, which
matches the data (team abbreviations, conference names) the program handles.
-/

/-- `Math.round` of JavaScript: round half towards positive infinity,
`Math.round x = ⌊x + 0.5⌋`. -/
def jsRound (q : ℚ) : ℤ := ⌊q + 1 / 2⌋

/-- Lower-case a string character by character (JS `toLowerCase` / Java
`toLowerCase` restricted to the ASCII data the program handles). -/
def strToLower (s : String) : String := String.mk (s.toList.map Char.toLower)

/-- Upper-case a string character by character (JS `toUpperCase` / Java
`toUpperCase` restricted to ASCII data). -/
def strToUpper (s : String) : String := String.mk (s.toList.map Char.toUpper)

/-- Java `String.contains` for a single-character needle
(the parser only ever asks for `"."`). -/
def strContains (s : String) (c : Char) : Bool := s.toList.contains c

/-- JS `hay.includes(needle)`: `needle` occurs contiguously inside `hay`. -/
def jsIncludes (hay needle : String) : Bool :=
  decide (needle.toList <:+: hay.toList)

/-- The fields of the `TeamStats` record (frontend `api/index.ts`) that the
prediction engine reads, plus the `abbr` key it is indexed by.  Display-only
fields (name, city, conference, wins, losses, fg percentages, rpg, apg,
games_played) are omitted: no embedded operation reads them. -/
structure TeamStats where
  abbr : String
  win_pct : ℚ
  ppg : ℚ
  opp_ppg : ℚ
  deriving DecidableEq, Repr

/-- Result triple of `calculatePrediction` in `PredictionsPage.tsx`. -/
structure PredictionResult where
  homeWinProb : ℤ
  awayWinProb : ℤ
  confidence : ℤ
  deriving DecidableEq, Repr

/-- Insertion into an association list with replacement of an existing
binding.  Models assignment into a JS object used as a hash map
(`statsMap[s.abbr] = s`) and `java.util.HashMap.put`: the key set and the
value bound to each key are faithful; iteration order is not relied on by
any claim. -/
def insertLWW {β : Type} (m : List (String × β)) (k : String) (v : β) :
    List (String × β) :=
  m.filter (fun p => p.1 != k) ++ [(k, v)]

/-- `PredictionsPage.tsx` lines 168-171: `stats.forEach(s => { statsMap[s.abbr] = s })`.
Later entries overwrite earlier ones with the same abbreviation; keys are
taken from `s.abbr` verbatim. -/
def buildStatsMap (stats : List TeamStats) : List (String × TeamStats) :=
  stats.foldl (fun m s => insertLWW m s.abbr s) []

/-- `calculatePrediction` from `PredictionsPage.tsx` lines 84-138.
Looks both teams up in the stats map; if either is absent returns the
neutral 50/50/50 prediction, otherwise applies the linear formula with
home-court constant `0.03`, clamps to `[0.20, 0.80]`, converts to an
integer percentage and derives the away probability and confidence. -/
def calculatePrediction (homeAbbr awayAbbr : String)
    (teamStatsMap : List (String × TeamStats)) : PredictionResult :=
  match teamStatsMap.lookup homeAbbr, teamStatsMap.lookup awayAbbr with
  | some homeStats, some awayStats =>
    let homeAdvantage : ℚ := 3 / 100
    let winPctDiff : ℚ := homeStats.win_pct - awayStats.win_pct
    let netRatingHome : ℚ := homeStats.ppg - homeStats.opp_ppg
    let netRatingAway : ℚ := awayStats.ppg - awayStats.opp_ppg
    let netRatingDiff : ℚ := (netRatingHome - netRatingAway) / 20
    let homeProb : ℚ := 1 / 2 + winPctDiff / 2 + homeAdvantage + netRatingDiff
    let homeProbClamped : ℚ := max (1 / 5) (min (4 / 5) homeProb)
    let homeWinProb : ℤ := jsRound (homeProbClamped * 100)
    let awayWinProb : ℤ := 100 - homeWinProb
    let confidence : ℤ := jsRound ((max homeWinProb awayWinProb : ℤ) : ℚ)
    ⟨homeWinProb, awayWinProb, confidence⟩
  | _, _ => ⟨50, 50, 50⟩

/-- Winner selection from `fetchScheduleAndPredict`, `PredictionsPage.tsx`
line 198: `homeWinProb > awayWinProb ? game.home_team_abbr : game.away_team_abbr`. -/
def predictedWinner (homeAbbr awayAbbr : String)
    (teamStatsMap : List (String × TeamStats)) : String :=
  let p := calculatePrediction homeAbbr awayAbbr teamStatsMap
  if p.homeWinProb > p.awayWinProb then homeAbbr else awayAbbr

/-- Clamp to a closed interval, written from the claim's wording
`clamp(x, lo, hi)`; realized as `max lo (min hi x)` exactly as the source's
`Math.max(lo, Math.min(hi, x))`. -/
def clamp (x lo hi : ℚ) : ℚ := max lo (min hi x)

/-- The home-win percentage exactly as claim C2 spells it:
`round(100 * clamp(0.5 + (home.win_pct - away.win_pct)/2 + 0.03 +
((home.ppg - home.opp_ppg) - (away.ppg - away.opp_ppg))/20, 0.20, 0.80))`. -/
def specHomeWinProb (home away : TeamStats) : ℤ :=
  round (100 * clamp
    (1 / 2 + (home.win_pct - away.win_pct) / 2 + 3 / 100 +
      ((home.ppg - home.opp_ppg) - (away.ppg - away.opp_ppg)) / 20)
    (1 / 5) (4 / 5))

/-- Demonstration stats row used by concrete witnesses (a team with a
perfect record and a +5 net rating). -/
def tBOS : TeamStats := ⟨"BOS", 1, 110, 105⟩

/-- Demonstration stats row used by concrete witnesses (a winless team with
a -2 net rating). -/
def tNYK : TeamStats := ⟨"NYK", 0, 108, 110⟩

/-- A concrete stats map holding `tBOS` and `tNYK`. -/
def demoMap : List (String × TeamStats) := [("BOS", tBOS), ("NYK", tNYK)]

/-- `jsRound` is the identity on integers. -/
theorem jsRound_intCast (n : ℤ) : jsRound ((n : ℤ) : ℚ) = n := by
  rw [jsRound, Int.floor_int_add]
  norm_num

/-- When both lookups succeed, `calculatePrediction` reduces to the explicit
clamped-and-rounded formula. -/
theorem calculatePrediction_eq_of_lookup {homeAbbr awayAbbr : String}
    {m : List (String × TeamStats)} {h a : TeamStats}
    (hh : m.lookup homeAbbr = some h) (ha : m.lookup awayAbbr = some a) :
    calculatePrediction homeAbbr awayAbbr m =
      ⟨jsRound (max (1 / 5) (min (4 / 5)
          (1 / 2 + (h.win_pct - a.win_pct) / 2 + 3 / 100 +
            ((h.ppg - h.opp_ppg) - (a.ppg - a.opp_ppg)) / 20)) * 100),
       100 - jsRound (max (1 / 5) (min (4 / 5)
          (1 / 2 + (h.win_pct - a.win_pct) / 2 + 3 / 100 +
            ((h.ppg - h.opp_ppg) - (a.ppg - a.opp_ppg)) / 20)) * 100),
       jsRound ((max
          (jsRound (max (1 / 5) (min (4 / 5)
            (1 / 2 + (h.win_pct - a.win_pct) / 2 + 3 / 100 +
              ((h.ppg - h.opp_ppg) - (a.ppg - a.opp_ppg)) / 20)) * 100))
          (100 - jsRound (max (1 / 5) (min (4 / 5)
            (1 / 2 + (h.win_pct - a.win_pct) / 2 + 3 / 100 +
              ((h.ppg - h.opp_ppg) - (a.ppg - a.opp_ppg)) / 20)) * 100)) : ℤ) : ℚ)⟩ := by
  unfold calculatePrediction
  rw [hh, ha]

/-- In every case (both branches of the guard) the away probability is the
complement of the home probability. -/
theorem awayWinProb_complement (homeAbbr awayAbbr : String)
    (m : List (String × TeamStats)) :
    (calculatePrediction homeAbbr awayAbbr m).awayWinProb =
      100 - (calculatePrediction homeAbbr awayAbbr m).homeWinProb := by
  unfold calculatePrediction
  cases m.lookup homeAbbr <;> cases m.lookup awayAbbr <;> norm_num

/-- C1: when both teams' stats are present, the prediction's probabilities
sum to 100, the home probability lies in [20, 80], and the confidence is the
maximum of the two probabilities (hence at least 50). -/
theorem C1_prediction_invariants (homeAbbr awayAbbr : String)
    (m : List (String × TeamStats)) (h a : TeamStats)
    (hh : m.lookup homeAbbr = some h) (ha : m.lookup awayAbbr = some a) :
    (calculatePrediction homeAbbr awayAbbr m).homeWinProb +
      (calculatePrediction homeAbbr awayAbbr m).awayWinProb = 100 ∧
    20 ≤ (calculatePrediction homeAbbr awayAbbr m).homeWinProb ∧
    (calculatePrediction homeAbbr awayAbbr m).homeWinProb ≤ 80 ∧
    (calculatePrediction homeAbbr awayAbbr m).confidence =
      max (calculatePrediction homeAbbr awayAbbr m).homeWinProb
        (calculatePrediction homeAbbr awayAbbr m).awayWinProb ∧
    50 ≤ (calculatePrediction homeAbbr awayAbbr m).confidence := by
  rw [calculatePrediction_eq_of_lookup hh ha]
  dsimp only
  set p : ℚ := max (1 / 5) (min (4 / 5)
    (1 / 2 + (h.win_pct - a.win_pct) / 2 + 3 / 100 +
      ((h.ppg - h.opp_ppg) - (a.ppg - a.opp_ppg)) / 20)) with hp
  have hp1 : (1 / 5 : ℚ) ≤ p := le_max_left _ _
  have hp2 : p ≤ 4 / 5 := max_le (by norm_num) (min_le_left _ _)
  have hlb : 20 ≤ jsRound (p * 100) := by
    rw [jsRound]
    refine Int.le_floor.mpr ?_
    push_cast
    linarith
  have hub : jsRound (p * 100) ≤ 80 := by
    have : jsRound (p * 100) < 81 := by
      rw [jsRound]
      refine Int.floor_lt.mpr ?_
      push_cast
      linarith
    omega
  refine ⟨by ring, hlb, hub, ?_, ?_⟩
  · exact jsRound_intCast _
  · rw [jsRound_intCast]
    rcases le_total (jsRound (p * 100)) (100 - jsRound (p * 100)) with hc | hc
    · rw [max_eq_right hc]; omega
    · rw [max_eq_left hc]; omega

/-- C1 witness: the invariants hold at a concrete stats map. -/
theorem C1_prediction_invariants_witness :
    (calculatePrediction "BOS" "NYK" demoMap).homeWinProb +
      (calculatePrediction "BOS" "NYK" demoMap).awayWinProb = 100 ∧
    20 ≤ (calculatePrediction "BOS" "NYK" demoMap).homeWinProb ∧
    (calculatePrediction "BOS" "NYK" demoMap).homeWinProb ≤ 80 ∧
    (calculatePrediction "BOS" "NYK" demoMap).confidence =
      max (calculatePrediction "BOS" "NYK" demoMap).homeWinProb
        (calculatePrediction "BOS" "NYK" demoMap).awayWinProb ∧
    50 ≤ (calculatePrediction "BOS" "NYK" demoMap).confidence :=
  C1_prediction_invariants "BOS" "NYK" demoMap tBOS tNYK (by decide) (by decide)

/-- C2: when both teams' stats are present, the home probability is exactly
the rounded clamped linear formula of the claim, and the away probability is
its complement. -/
theorem C2_prediction_formula (homeAbbr awayAbbr : String)
    (m : List (String × TeamStats)) (h a : TeamStats)
    (hh : m.lookup homeAbbr = some h) (ha : m.lookup awayAbbr = some a) :
    (calculatePrediction homeAbbr awayAbbr m).homeWinProb = specHomeWinProb h a ∧
    (calculatePrediction homeAbbr awayAbbr m).awayWinProb =
      100 - specHomeWinProb h a := by
  rw [calculatePrediction_eq_of_lookup hh ha]
  constructor
  · show jsRound _ = _
    rw [specHomeWinProb, clamp, jsRound, round_eq, mul_comm]
  · show 100 - jsRound _ = _
    rw [specHomeWinProb, clamp, jsRound, round_eq, mul_comm]

/-- C2 witness: at the concrete stats map the code's output matches the
claim's formula (which clamps at 80 here). -/
theorem C2_prediction_formula_witness :
    (calculatePrediction "BOS" "NYK" demoMap).homeWinProb = specHomeWinProb tBOS tNYK ∧
    (calculatePrediction "BOS" "NYK" demoMap).awayWinProb =
      100 - specHomeWinProb tBOS tNYK :=
  C2_prediction_formula "BOS" "NYK" demoMap tBOS tNYK (by decide) (by decide)

/-- C3 counterexample: with an empty stats map both probabilities are 50
(the only possible tie), yet the predicted winner is the away team "NYK",
not the home team "BOS" as the claim states. -/
theorem C3_tie_counterexample :
    (calculatePrediction "BOS" "NYK" []).homeWinProb = 50 ∧
    (calculatePrediction "BOS" "NYK" []).awayWinProb = 50 ∧
    predictedWinner "BOS" "NYK" [] = "NYK" := by
  refine ⟨rfl, rfl, ?_⟩
  decide

/-- C3 (amended): the predicted winner is the home team exactly when
`homeWinProb > awayWinProb` (for distinct abbreviations); a tie can only
happen at `homeWinProb = 50` and is resolved to the *away* team. -/
theorem C3_predicted_winner (homeAbbr awayAbbr : String)
    (m : List (String × TeamStats)) :
    (predictedWinner homeAbbr awayAbbr m =
      if (calculatePrediction homeAbbr awayAbbr m).awayWinProb <
          (calculatePrediction homeAbbr awayAbbr m).homeWinProb
        then homeAbbr else awayAbbr) ∧
    ((calculatePrediction homeAbbr awayAbbr m).homeWinProb =
        (calculatePrediction homeAbbr awayAbbr m).awayWinProb →
      (calculatePrediction homeAbbr awayAbbr m).homeWinProb = 50 ∧
      predictedWinner homeAbbr awayAbbr m = awayAbbr) ∧
    (homeAbbr ≠ awayAbbr →
      (predictedWinner homeAbbr awayAbbr m = homeAbbr ↔
        (calculatePrediction homeAbbr awayAbbr m).awayWinProb <
          (calculatePrediction homeAbbr awayAbbr m).homeWinProb)) := by
  have hc := awayWinProb_complement homeAbbr awayAbbr m
  refine ⟨rfl, ?_, ?_⟩
  · intro htie
    constructor
    · omega
    · rw [predictedWinner]
      have : ¬ ((calculatePrediction homeAbbr awayAbbr m).homeWinProb >
          (calculatePrediction homeAbbr awayAbbr m).awayWinProb) := by omega
      simp [this]
  · intro hne
    rw [predictedWinner]
    by_cases hgt : (calculatePrediction homeAbbr awayAbbr m).awayWinProb <
        (calculatePrediction homeAbbr awayAbbr m).homeWinProb
    · rw [if_pos hgt]
      exact iff_of_true rfl hgt
    · rw [if_neg hgt]
      exact iff_of_false (fun he => hne he.symm) hgt

/-- C3 witness: the amended statement evaluated at the empty stats map —
the tie case fires and resolves to the away team. -/
theorem C3_predicted_winner_witness :
    ((calculatePrediction "BOS" "NYK" []).homeWinProb = 50 ∧
      predictedWinner "BOS" "NYK" [] = "NYK") ∧
    (predictedWinner "BOS" "NYK" [] = "BOS" ↔
      (calculatePrediction "BOS" "NYK" []).awayWinProb <
        (calculatePrediction "BOS" "NYK" []).homeWinProb) :=
  ⟨(C3_predicted_winner "BOS" "NYK" []).2.1 (by decide),
   (C3_predicted_winner "BOS" "NYK" []).2.2 (by decide)⟩

/-- C4: if either abbreviation is missing from the stats map, the function
totally (no exception path exists in the embedding) returns the neutral
50/50/50 prediction. -/
theorem C4_neutral_fallback (homeAbbr awayAbbr : String)
    (m : List (String × TeamStats))
    (hmiss : m.lookup homeAbbr = none ∨ m.lookup awayAbbr = none) :
    calculatePrediction homeAbbr awayAbbr m = ⟨50, 50, 50⟩ := by
  unfold calculatePrediction
  rcases hx : m.lookup homeAbbr with _ | h <;>
    rcases hy : m.lookup awayAbbr with _ | a <;> try rfl
  rcases hmiss with hm | hm
  · rw [hm] at hx
    exact Option.noConfusion hx
  · rw [hm] at hy
    exact Option.noConfusion hy

/-- C4 witness: the spec's own example — an unknown abbreviation "ZZZ"
yields the neutral prediction. -/
theorem C4_neutral_fallback_witness :
    calculatePrediction "ZZZ" "BOS" demoMap = ⟨50, 50, 50⟩ :=
  C4_neutral_fallback "ZZZ" "BOS" demoMap (Or.inl (by decide))

/-- Split a character list at every occurrence of `sep`, keeping empty
segments (the underlying regex split of Java's `String.split(",")` before
its removal of trailing empty strings). -/
def splitOnChar (sep : Char) : List Char → List (List Char)
  | [] => [[]]
  | c :: rest =>
    if c = sep then [] :: splitOnChar sep rest
    else
      match splitOnChar sep rest with
      | [] => [[c]]
      | g :: gs => (c :: g) :: gs

/-- Remove trailing empty strings from a segment list. -/
def dropTrailingEmpties (l : List String) : List String :=
  (l.reverse.dropWhile (fun p => p.toList.isEmpty)).reverse

/-- Java `s.split(",")` (zero limit): split at commas, drop trailing empty
strings, except that splitting the empty string yields `[""]`. -/
def javaSplit (s : String) : List String :=
  let parts := (splitOnChar ',' s.toList).map String.mk
  if s.toList.isEmpty then parts else dropTrailingEmpties parts

/-- Java `String.trim`: remove characters with code points `≤ U+0020` from
both ends. -/
def javaTrim (s : String) : String :=
  String.mk
    (((s.toList.dropWhile (fun c => c.toNat ≤ 32)).reverse.dropWhile
      (fun c => c.toNat ≤ 32)).reverse)

/-- Value of a digit string, most significant digit first. -/
def digitsVal (cs : List Char) : ℕ :=
  cs.foldl (fun n c => 10 * n + (c.toNat - 48)) 0

/-- Parse a non-empty all-digit character list; `none` otherwise. -/
def digitsToNat (cs : List Char) : Option ℕ :=
  if cs ≠ [] ∧ cs.all Char.isDigit then some (digitsVal cs) else none

/-- Strip one optional leading sign; returns (isNegative, rest). -/
def stripSign (cs : List Char) : Bool × List Char :=
  match cs with
  | '-' :: rest => (true, rest)
  | '+' :: rest => (false, rest)
  | _ => (false, cs)

/-- Java `Long.parseLong`: optional sign, one or more digits, result within
the signed 64-bit range; `none` (the `NumberFormatException` path) otherwise. -/
def parseLong (s : String) : Option ℤ :=
  let sr := stripSign s.toList
  match digitsToNat sr.2 with
  | none => none
  | some n =>
    let v : ℤ := if sr.1 then -(n : ℤ) else (n : ℤ)
    if -(2 ^ 63) ≤ v ∧ v ≤ 2 ^ 63 - 1 then some v else none

/-- Java `Double.parseDouble` restricted to plain decimal literals: optional
sign, digits with at most one decimal point and at least one digit overall
(`"1."` and `".5"` parse, `"."` does not), as an exact rational.  Exponent
notation, hexadecimal literals, `Infinity`/`NaN` and the `f`/`d` suffixes
are not modelled: no such value occurs in the engine's numeric snapshot
cells, and no claim depends on them. -/
def parseDecimal (s : String) : Option ℚ :=
  let sr := stripSign s.toList
  let withSign : ℚ → ℚ := fun q => if sr.1 then -q else q
  match splitOnChar '.' sr.2 with
  | [ds] => (digitsToNat ds).map (fun n => withSign (n : ℚ))
  | [ipart, fpart] =>
    if (ipart ++ fpart) ≠ [] ∧ (ipart ++ fpart).all Char.isDigit then
      some (withSign ((digitsVal ipart : ℚ) +
        (digitsVal fpart : ℚ) / 10 ^ fpart.length))
    else none
  | _ => none

/-- A parsed CSV cell: a `Double`, a `Long`, or the original text
(the `Object` stored by `ScheduleController.parseCsvToList`). -/
inductive CsvCell where
  | num : ℚ → CsvCell
  | int : ℤ → CsvCell
  | text : String → CsvCell
  deriving DecidableEq, Repr

/-- Per-cell coercion of `parseCsvToList` lines 141-150: if the cell text
contains `'.'` try `Double.parseDouble`, otherwise try `Long.parseLong`;
on a `NumberFormatException` keep the original text. -/
def coerceCell (value : String) : CsvCell :=
  if strContains value '.' then
    match parseDecimal value with
    | some q => .num q
    | none => .text value
  else
    match parseLong value with
    | some n => .int n
    | none => .text value

/-- The per-cell policy written from claim C8's wording: a decimal number
when the text contains the separator and parses as a decimal, otherwise an
integer when it parses as an integer, otherwise the unchanged text. -/
def coerceCellSpec (value : String) : CsvCell :=
  if strContains value '.' ∧ (parseDecimal value).isSome then
    .num ((parseDecimal value).getD 0)
  else if (parseLong value).isSome then
    .int ((parseLong value).getD 0)
  else
    .text value

/-- A parsed CSV row: the `HashMap<String, Object>` of the Java code,
modelled as an association list with unique keys. -/
abbrev CsvRow := List (String × CsvCell)

/-- The inner loop of `parseCsvToList` lines 136-151: for
`i < headers.length && i < values.length`, put the trimmed header key and
coerced trimmed value into the row map (`HashMap.put` overwrites). -/
def buildRow (headers values : List String) : CsvRow :=
  (headers.zip values).foldl
    (fun row hv => insertLWW row (javaTrim hv.1) (coerceCell (javaTrim hv.2))) []

/-- `ScheduleController.parseCsvToList` lines 118-157 over the file's lines:
an empty file yields no rows; otherwise the first line is the header and
every remaining line becomes one row. -/
def parseCsvToList (lines : List String) : List CsvRow :=
  match lines with
  | [] => []
  | headerLine :: rest =>
    rest.map (fun line => buildRow (javaSplit headerLine) (javaSplit line))

/-- Membership in a sign-stripped list, for characters that are not signs. -/
theorem mem_stripSign_snd {c : Char} {cs : List Char}
    (hc1 : c ≠ '-') (hc2 : c ≠ '+') (h : c ∈ cs) : c ∈ (stripSign cs).2 := by
  unfold stripSign
  split
  · next rest =>
    rcases List.mem_cons.mp h with h1 | h1
    · exact absurd h1 hc1
    · exact h1
  · next rest =>
    rcases List.mem_cons.mp h with h1 | h1
    · exact absurd h1 hc2
    · exact h1
  · exact h

/-- A list containing a non-digit character is rejected by `digitsToNat`. -/
theorem digitsToNat_eq_none_of_mem {c : Char} {cs : List Char}
    (hm : c ∈ cs) (hd : c.isDigit = false) : digitsToNat cs = none := by
  rw [digitsToNat, if_neg]
  rintro ⟨-, hall⟩
  have := List.all_eq_true.mp hall c hm
  rw [hd] at this
  exact Bool.false_ne_true this

/-- `Long.parseLong` rejects any string containing the decimal point. -/
theorem parseLong_eq_none_of_contains_dot {v : String}
    (h : strContains v '.' = true) : parseLong v = none := by
  have hm : '.' ∈ v.toList := by simpa [strContains] using h
  have h2 : '.' ∈ (stripSign v.toList).2 :=
    mem_stripSign_snd (by decide) (by decide) hm
  have h3 : digitsToNat (stripSign v.toList).2 = none :=
    digitsToNat_eq_none_of_mem h2 (by decide)
  simp only [parseLong, h3]

/-- C8: the code's per-cell coercion coincides with the claim's policy
(decimal when the text contains the separator and parses as a decimal, else
integer when it parses as one, else the unchanged text), and `parseCsvToList`
applies it cell by cell, row by row, independently. -/
theorem C8_cell_typing :
    (∀ value : String, coerceCell value = coerceCellSpec value) ∧
    (∀ hdr rows, parseCsvToList (hdr :: rows) =
      rows.map (fun line => buildRow (javaSplit hdr) (javaSplit line))) := by
  refine ⟨?_, fun hdr rows => rfl⟩
  intro v
  by_cases hd : strContains v '.' = true
  · rcases hq : parseDecimal v with _ | q
    · have hl := parseLong_eq_none_of_contains_dot hd
      simp [coerceCell, coerceCellSpec, hd, hq, hl]
    · simp [coerceCell, coerceCellSpec, hd, hq]
  · rcases hl : parseLong v with _ | n <;>
      simp [coerceCell, coerceCellSpec, hd, hl]

/-- Inserting one binding grows the map by at most one entry. -/
theorem length_insertLWW_le {β : Type} (m : List (String × β)) (k : String)
    (v : β) : (insertLWW m k v).length ≤ m.length + 1 := by
  rw [insertLWW, List.length_append]
  have := List.length_filter_le (fun p : String × β => p.1 != k) m
  simpa using Nat.add_le_add_right this 1

/-- Inserting a fresh key grows the map by exactly one entry. -/
theorem length_insertLWW_of_not_mem {β : Type} {m : List (String × β)}
    {k : String} (v : β) (h : k ∉ m.map Prod.fst) :
    (insertLWW m k v).length = m.length + 1 := by
  rw [insertLWW, List.length_append]
  have hf : m.filter (fun p => p.1 != k) = m := by
    rw [List.filter_eq_self]
    intro p hp
    rw [bne_iff_ne]
    intro he
    exact h (he ▸ List.mem_map_of_mem Prod.fst hp)
  rw [hf]
  rfl

/-- A key of the map after an insertion was a key before, or is the inserted
key. -/
theorem mem_keys_insertLWW {β : Type} {m : List (String × β)} {k a : String}
    {v : β} (h : a ∈ (insertLWW m k v).map Prod.fst) :
    a ∈ m.map Prod.fst ∨ a = k := by
  rw [insertLWW, List.map_append] at h
  rcases List.mem_append.mp h with h1 | h1
  · left
    rcases List.mem_map.mp h1 with ⟨p, hp, he⟩
    exact he ▸ List.mem_map_of_mem Prod.fst (List.mem_of_mem_filter hp)
  · right
    simpa using h1

/-- Folding `insertLWW` over a pair list grows the map by at most the number
of pairs. -/
theorem length_foldl_insertLWW_le {β : Type} :
    ∀ (ps : List (String × β)) (m : List (String × β)),
    ((ps.foldl (fun acc p => insertLWW acc p.1 p.2) m)).length ≤
      m.length + ps.length
  | [], m => by simp
  | p :: ps, m => by
    simp only [List.foldl_cons, List.length_cons]
    calc ((ps.foldl (fun acc q => insertLWW acc q.1 q.2)
            (insertLWW m p.1 p.2))).length
        ≤ (insertLWW m p.1 p.2).length + ps.length :=
          length_foldl_insertLWW_le ps _
      _ ≤ (m.length + 1) + ps.length := by
          have := length_insertLWW_le m p.1 p.2
          omega
      _ = m.length + (ps.length + 1) := by omega

/-- Folding `insertLWW` over pairs with pairwise-distinct keys, all fresh for
the initial map, grows the map by exactly the number of pairs. -/
theorem length_foldl_insertLWW_eq {β : Type} :
    ∀ (ps : List (String × β)) (m : List (String × β)),
    (∀ q ∈ ps, q.1 ∉ m.map Prod.fst) → (ps.map Prod.fst).Nodup →
    ((ps.foldl (fun acc p => insertLWW acc p.1 p.2) m)).length =
      m.length + ps.length
  | [], m, _, _ => by simp
  | p :: ps, m, hfresh, hnd => by
    rw [List.map_cons] at hnd
    have hnd' := List.nodup_cons.mp hnd
    simp only [List.foldl_cons, List.length_cons]
    rw [length_foldl_insertLWW_eq ps (insertLWW m p.1 p.2) ?_ hnd'.2]
    · rw [length_insertLWW_of_not_mem p.2 (hfresh p (List.mem_cons_self p ps))]
      omega
    · intro q hq hmem
      rcases mem_keys_insertLWW hmem with h1 | h1
      · exact hfresh q (List.mem_cons_of_mem p hq) h1
      · exact hnd'.1 (h1 ▸ List.mem_map_of_mem Prod.fst hq)

/-- `buildRow` as a fold of `insertLWW` over the trimmed, coerced pair list. -/
theorem buildRow_eq_foldl (headers values : List String) :
    buildRow headers values =
      (((headers.zip values).map
          (fun hv => (javaTrim hv.1, coerceCell (javaTrim hv.2)))).foldl
        (fun acc p => insertLWW acc p.1 p.2) []) := by
  rw [buildRow, List.foldl_map]

/-- C10 counterexample: for the header line "a,a" (2 cells) and the data row
"1,2,3" (3 cells) — counts differ — the produced row holds a single field,
not min 2 3 = 2: the duplicated trimmed header makes the second `put`
overwrite the first. -/
theorem C10_duplicate_header_counterexample :
    (parseCsvToList ["a,a", "1,2,3"]).map List.length = [1] ∧
    min (javaSplit "a,a").length (javaSplit "1,2,3").length = 2 ∧
    (javaSplit "a,a").length ≠ (javaSplit "1,2,3").length := by
  refine ⟨?_, by decide, by decide⟩
  decide

/-- C10 (amended): the parser is total on malformed shapes — an empty file
yields no rows; every data row yields a row of at most
min (header count) (cell count) fields, with equality whenever the trimmed
headers paired with cells are pairwise distinct (duplicate headers collapse
because the row is a map keyed by header). -/
theorem C10_parser_totality :
    parseCsvToList [] = [] ∧
    ∀ (hdr line : String) (rows : List String), line ∈ rows →
      buildRow (javaSplit hdr) (javaSplit line) ∈ parseCsvToList (hdr :: rows) ∧
      (buildRow (javaSplit hdr) (javaSplit line)).length ≤
        min (javaSplit hdr).length (javaSplit line).length ∧
      ((((javaSplit hdr).zip (javaSplit line)).map
          (fun p => javaTrim p.1)).Nodup →
        (buildRow (javaSplit hdr) (javaSplit line)).length =
          min (javaSplit hdr).length (javaSplit line).length) := by
  refine ⟨rfl, fun hdr line rows hmem => ⟨?_, ?_, ?_⟩⟩
  · rw [parseCsvToList]
    exact List.mem_map_of_mem _ hmem
  · rw [buildRow_eq_foldl]
    have h1 := length_foldl_insertLWW_le
      (((javaSplit hdr).zip (javaSplit line)).map
        (fun hv => (javaTrim hv.1, coerceCell (javaTrim hv.2)))) []
    simpa [List.length_zip] using h1
  · intro hnd
    rw [buildRow_eq_foldl]
    have hk : ((((javaSplit hdr).zip (javaSplit line)).map
        (fun hv => (javaTrim hv.1, coerceCell (javaTrim hv.2)))).map
          Prod.fst) =
        (((javaSplit hdr).zip (javaSplit line)).map (fun p => javaTrim p.1)) := by
      rw [List.map_map]
      rfl
    have h1 := length_foldl_insertLWW_eq
      (((javaSplit hdr).zip (javaSplit line)).map
        (fun hv => (javaTrim hv.1, coerceCell (javaTrim hv.2)))) []
      (by simp) (hk ▸ hnd)
    simpa [List.length_zip] using h1

/-- C10 witness: evaluated at a concrete well-formed header and a longer data
row, the row holds exactly min 2 3 = 2 fields. -/
theorem C10_parser_totality_witness :
    buildRow (javaSplit "a,b") (javaSplit "1,2,3") ∈
      parseCsvToList ["a,b", "1,2,3"] ∧
    (buildRow (javaSplit "a,b") (javaSplit "1,2,3")).length =
      min (javaSplit "a,b").length (javaSplit "1,2,3").length :=
  ⟨((C10_parser_totality.2 "a,b" "1,2,3" ["1,2,3"] (by decide)).1),
   ((C10_parser_totality.2 "a,b" "1,2,3" ["1,2,3"] (by decide)).2.2 (by decide))⟩

/-- State of one snapshot source as the controller observes it: the file is
absent, reading or parsing it throws an `IOException`, or it yields data. -/
inductive SnapshotSource (α : Type) where
  | absent : SnapshotSource α
  | ioError : SnapshotSource α
  | ok : α → SnapshotSource α

/-- `ScheduleController.getUpcomingGames` lines 32-51: a missing schedule
file and an `IOException` both return an empty list; otherwise the parsed
JSON records are returned as-is.  The embedding is total: there is no
exception-propagating outcome in its type. -/
def getUpcomingGames {α : Type} : SnapshotSource (List α) → List α
  | .absent => []
  | .ioError => []
  | .ok games => games

/-- `ScheduleController.getTeamStats` lines 53-68: a missing stats file and
an `IOException` both return an empty list; otherwise the CSV lines are
parsed with `parseCsvToList`. -/
def getTeamStats : SnapshotSource (List String) → List CsvRow
  | .absent => []
  | .ioError => []
  | .ok lines => parseCsvToList lines

/-- `ScheduleController.getPlayerStats` lines 70-88: same shape as the
schedule endpoint over the player JSON file. -/
def getPlayerStats {α : Type} : SnapshotSource (List α) → List α
  | .absent => []
  | .ioError => []
  | .ok players => players

/-- The overall load: the three endpoints read three independent sources. -/
def loadAllSnapshots {α β : Type} (s₁ : SnapshotSource (List α))
    (s₂ : SnapshotSource (List String)) (s₃ : SnapshotSource (List β)) :
    List α × List CsvRow × List β :=
  (getUpcomingGames s₁, getTeamStats s₂, getPlayerStats s₃)

/-- C5: each loader returns an empty list when its source is absent or its
read/parse throws, never an exception (the embeddings are total functions
into plain lists), and the overall load factors into the three independent
per-source loaders, so a failing source leaves the other two unaffected. -/
theorem C5_loader_resilience :
    (∀ α : Type, getUpcomingGames (α := α) .absent = [] ∧
      getUpcomingGames (α := α) .ioError = []) ∧
    (getTeamStats .absent = [] ∧ getTeamStats .ioError = []) ∧
    (∀ α : Type, getPlayerStats (α := α) .absent = [] ∧
      getPlayerStats (α := α) .ioError = []) ∧
    (∀ (α β : Type) (s₁ : SnapshotSource (List α))
        (s₂ : SnapshotSource (List String)) (s₃ : SnapshotSource (List β)),
      loadAllSnapshots s₁ s₂ s₃ =
        (getUpcomingGames s₁, getTeamStats s₂, getPlayerStats s₃)) :=
  ⟨fun _ => ⟨rfl, rfl⟩, ⟨rfl, rfl⟩, fun _ => ⟨rfl, rfl⟩,
   fun _ _ _ _ _ => rfl⟩

/-- The fields of the frontend `Team` record (`api/index.ts`) that the teams
filter reads.  Display-only fields (id, division, logo, founded,
championships) are omitted: `filteredTeams` does not read them. -/
structure Team where
  name : String
  city : String
  abbreviation : String
  conference : String
  deriving DecidableEq, Repr

/-- `filteredTeams` from `TeamsPage.tsx` lines 47-53: keep the teams whose
name, city or abbreviation contains the search text case-insensitively, and
whose conference equals the selected one unless "All" is selected. -/
def filteredTeams (teams : List Team) (search conference : String) :
    List Team :=
  teams.filter (fun team =>
    (jsIncludes (strToLower team.name) (strToLower search) ||
     jsIncludes (strToLower team.city) (strToLower search) ||
     jsIncludes (strToLower team.abbreviation) (strToLower search)) &&
    (conference == "All" || team.conference == conference))

/-- C7: the teams query returns exactly the teams passing both filters
conjunctively — case-insensitive substring search over name/city/abbreviation
and exact conference match — an absent filter (`""` search, `"All"`
conference) passes all records, and the claim's concrete example holds.
Totality (an empty result is an ordinary value) is inherent in the
embedding's type. -/
theorem C7_teams_query :
    (∀ (teams : List Team) (search conference : String) (t : Team),
      t ∈ filteredTeams teams search conference ↔
        t ∈ teams ∧
        ((strToLower search).toList <:+: (strToLower t.name).toList ∨
         (strToLower search).toList <:+: (strToLower t.city).toList ∨
         (strToLower search).toList <:+: (strToLower t.abbreviation).toList) ∧
        (conference = "All" ∨ t.conference = conference)) ∧
    (∀ (teams : List Team) (conference : String) (t : Team),
      t ∈ filteredTeams teams "" conference ↔
        t ∈ teams ∧ (conference = "All" ∨ t.conference = conference)) ∧
    filteredTeams
        [⟨"Celtics", "Boston", "BOS", "East"⟩,
         ⟨"Lakers", "Los Angeles", "LAL", "West"⟩] "" "East" =
      [⟨"Celtics", "Boston", "BOS", "East"⟩] := by
  have hmain : ∀ (teams : List Team) (search conference : String) (t : Team),
      t ∈ filteredTeams teams search conference ↔
        t ∈ teams ∧
        ((strToLower search).toList <:+: (strToLower t.name).toList ∨
         (strToLower search).toList <:+: (strToLower t.city).toList ∨
         (strToLower search).toList <:+: (strToLower t.abbreviation).toList) ∧
        (conference = "All" ∨ t.conference = conference) := by
    intro teams search conference t
    rw [filteredTeams, List.mem_filter]
    simp [jsIncludes, Bool.and_eq_true, Bool.or_eq_true, decide_eq_true_eq,
      beq_iff_eq, and_assoc, or_assoc]
  refine ⟨hmain, ?_, by decide⟩
  intro teams conference t
  rw [hmain teams "" conference t]
  have hnil : (strToLower "").data = [] := rfl
  simp [hnil, List.nil_infix]

/-- The fields of the `PlayerStats` record (`api/index.ts` /
`top10_player_stats.json`) that the roster pipeline reads: the filter key
`team_abbr`, the sort key `ppg`, and the identity `player_id`.  Display-only
fields (name, position, jersey, shooting splits, ...) are omitted. -/
structure PlayerRow where
  player_id : ℤ
  team_abbr : String
  ppg : ℚ
  deriving DecidableEq, Repr

/-- Java `String.equalsIgnoreCase` over the ASCII data the program handles:
equality after per-character case folding. -/
def equalsIgnoreCase (a b : String) : Bool :=
  a.toList.map Char.toLower == b.toList.map Char.toLower

/-- `ScheduleController.getPlayersByTeam` lines 90-116, data-path core: keep
the players whose `team_abbr` equals the requested abbreviation
case-insensitively, in file order. -/
def getPlayersByTeam (teamAbbr : String) (allPlayers : List PlayerRow) :
    List PlayerRow :=
  allPlayers.filter (fun p => equalsIgnoreCase teamAbbr p.team_abbr)

/-- The comparator of `TeamDetailPage.tsx` line 36,
`(a, b) => b.ppg - a.ppg`, as the "may precede" relation of a stable sort:
`a` may precede `b` iff the comparator is ≤ 0, i.e. `b.ppg ≤ a.ppg`. -/
def ppgDescLe (a b : PlayerRow) : Bool := decide (b.ppg ≤ a.ppg)

/-- `fetchPlayers` from `TeamDetailPage.tsx` lines 29-46: fetch the roster
for the uppercased route abbreviation, then sort by descending ppg with
JavaScript `Array.prototype.sort`, which is stable (ES2019). -/
def fetchPlayers (teamAbbr : String) (allPlayers : List PlayerRow) :
    List PlayerRow :=
  (getPlayersByTeam (strToUpper teamAbbr) allPlayers).mergeSort ppgDescLe

/-- `ppgDescLe` is transitive. -/
theorem ppgDescLe_trans : ∀ a b c : PlayerRow,
    ppgDescLe a b → ppgDescLe b c → ppgDescLe a c := by
  intro a b c hab hbc
  simp only [ppgDescLe, decide_eq_true_eq] at *
  exact le_trans hbc hab

/-- `ppgDescLe` is total. -/
theorem ppgDescLe_total : ∀ a b : PlayerRow,
    ppgDescLe a b || ppgDescLe b a := by
  intro a b
  simp only [ppgDescLe, Bool.or_eq_true, decide_eq_true_eq]
  exact le_total b.ppg a.ppg

/-- C6 counterexample: two "BOS" players with equal ppg, stored with ids
2 then 1, come back in source order [2, 1] — not in ascending player-id
order as the claim requires for equal ppg. -/
theorem C6_tie_order_counterexample :
    (fetchPlayers "BOS" [⟨2, "BOS", 20⟩, ⟨1, "BOS", 20⟩]).map
        PlayerRow.player_id = [2, 1] ∧
    (fetchPlayers "BOS" [⟨2, "BOS", 20⟩, ⟨1, "BOS", 20⟩]).map
        PlayerRow.ppg = [20, 20] := by
  have h : fetchPlayers "BOS" [⟨2, "BOS", 20⟩, ⟨1, "BOS", 20⟩] =
      [⟨2, "BOS", 20⟩, ⟨1, "BOS", 20⟩] := by
    rw [fetchPlayers]
    have h1 : getPlayersByTeam (strToUpper "BOS")
        [⟨2, "BOS", 20⟩, ⟨1, "BOS", 20⟩] =
        [⟨2, "BOS", 20⟩, ⟨1, "BOS", 20⟩] := by decide
    rw [h1]
    exact List.mergeSort_of_sorted (by decide)
  rw [h]
  exact ⟨rfl, rfl⟩

/-- C6 (amended): the roster is sorted by non-increasing ppg and is a
permutation of the case-insensitively filtered source players; players with
equal ppg keep their relative source order (sort stability), rather than
being reordered by ascending player id; the claim's concrete example
`[{id:1, ppg:20}, {id:2, ppg:25}] → [id 2, id 1]` holds. -/
theorem C6_roster_order :
    (∀ (teamAbbr : String) (allPlayers : List PlayerRow),
      (fetchPlayers teamAbbr allPlayers).Pairwise
        (fun a b => b.ppg ≤ a.ppg)) ∧
    (∀ (teamAbbr : String) (allPlayers : List PlayerRow),
      (fetchPlayers teamAbbr allPlayers).Perm
        (getPlayersByTeam (strToUpper teamAbbr) allPlayers)) ∧
    (∀ (teamAbbr : String) (allPlayers : List PlayerRow) (a b : PlayerRow),
      b.ppg ≤ a.ppg →
      List.Sublist [a, b] (getPlayersByTeam (strToUpper teamAbbr) allPlayers) →
      List.Sublist [a, b] (fetchPlayers teamAbbr allPlayers)) ∧
    (fetchPlayers "BOS" [⟨1, "BOS", 20⟩, ⟨2, "BOS", 25⟩]).map
        PlayerRow.player_id = [2, 1] := by
  refine ⟨?_, ?_, ?_, ?_⟩
  · intro teamAbbr allPlayers
    have h := List.sorted_mergeSort ppgDescLe_trans ppgDescLe_total
      (getPlayersByTeam (strToUpper teamAbbr) allPlayers)
    exact h.imp (fun hab => by simpa [ppgDescLe] using hab)
  · intro teamAbbr allPlayers
    exact List.mergeSort_perm _ _
  · intro teamAbbr allPlayers a b hab hsub
    exact List.pair_sublist_mergeSort ppgDescLe_trans ppgDescLe_total
      (by simpa [ppgDescLe] using hab) hsub
  · have h1 : getPlayersByTeam (strToUpper "BOS")
        [⟨1, "BOS", 20⟩, ⟨2, "BOS", 25⟩] =
        [⟨1, "BOS", 20⟩, ⟨2, "BOS", 25⟩] := by decide
    rw [fetchPlayers, h1]
    have hle : ppgDescLe ⟨1, "BOS", 20⟩ ⟨2, "BOS", 25⟩ = false := by
      simp only [ppgDescLe, decide_eq_false_iff_not]
      norm_num
    simp [List.mergeSort, List.merge, hle]

/-- C6 witness: the stability clause applied to the counterexample input —
the equal-ppg pair in source order [id 2, id 1] survives into the output. -/
theorem C6_roster_order_witness :
    List.Sublist [(⟨2, "BOS", 20⟩ : PlayerRow), ⟨1, "BOS", 20⟩]
      (fetchPlayers "BOS" [⟨2, "BOS", 20⟩, ⟨1, "BOS", 20⟩]) :=
  C6_roster_order.2.2.1 "BOS" [⟨2, "BOS", 20⟩, ⟨1, "BOS", 20⟩]
    ⟨2, "BOS", 20⟩ ⟨1, "BOS", 20⟩ (by norm_num) (by decide)

/-- Keys of the fold of `insertLWW` over stats rows come from the rows'
`abbr` fields (or from the initial map), verbatim. -/
theorem mem_keys_buildStatsMap_aux :
    ∀ (stats : List TeamStats) (m : List (String × TeamStats)) (k : String),
    k ∈ ((stats.foldl (fun acc s => insertLWW acc s.abbr s) m).map Prod.fst) →
    k ∈ m.map Prod.fst ∨ k ∈ stats.map TeamStats.abbr
  | [], m, k, h => Or.inl (by simpa using h)
  | s :: stats, m, k, h => by
    simp only [List.foldl_cons] at h
    rcases mem_keys_buildStatsMap_aux stats (insertLWW m s.abbr s) k h with
      h1 | h1
    · rcases mem_keys_insertLWW h1 with h2 | h2
      · exact Or.inl h2
      · exact Or.inr (by simp [h2])
    · exact Or.inr (by simp [h1])

/-- C9 counterexample: a stats row carrying the non-uppercase abbreviation
"bos" is stored under the key "bos" (not uppercase), the prediction
engine's uppercase lookup "BOS" misses it, and a "BOS" home game therefore
degrades to the neutral prediction even though the team's stats exist. -/
theorem C9_case_counterexample :
    (buildStatsMap [⟨"bos", 1, 110, 105⟩]).map Prod.fst = ["bos"] ∧
    (buildStatsMap [⟨"bos", 1, 110, 105⟩]).lookup "BOS" = none ∧
    calculatePrediction "BOS" "NYK"
        (buildStatsMap [⟨"bos", 1, 110, 105⟩, ⟨"NYK", 0, 108, 110⟩]) =
      ⟨50, 50, 50⟩ := by
  refine ⟨by decide, by decide, ?_⟩
  decide

/-- C9 (amended): only the roster path normalizes case — the backend roster
filter matches `team_abbr` case-insensitively and `TeamDetailPage` queries
with the uppercased route abbreviation, so a roster stored with a
non-uppercase abbreviation is still found; the stats map, by contrast,
stores abbreviation keys verbatim from the data (no uppercasing), and the
prediction lookup uses the schedule abbreviation verbatim, so a stats row
with a non-uppercase abbreviation is not found by its uppercase form. -/
theorem C9_key_normalization :
    (∀ (q : String) (ps : List PlayerRow) (p : PlayerRow),
      p ∈ getPlayersByTeam q ps ↔
        p ∈ ps ∧ strToLower q = strToLower p.team_abbr) ∧
    (∀ t : TeamStats, (buildStatsMap [t]).lookup t.abbr = some t) ∧
    (∀ (stats : List TeamStats) (k : String),
      k ∈ (buildStatsMap stats).map Prod.fst →
        k ∈ stats.map TeamStats.abbr) ∧
    getPlayersByTeam "BOS" [⟨1, "bos", 20⟩] = [⟨1, "bos", 20⟩] ∧
    fetchPlayers "bos" [⟨1, "bos", 20⟩] = [⟨1, "bos", 20⟩] := by
  refine ⟨?_, ?_, ?_, by decide, ?_⟩
  · intro q ps p
    simp [getPlayersByTeam, List.mem_filter, equalsIgnoreCase, strToLower,
      String.ext_iff, String.toList]
  · intro t
    simp [buildStatsMap, insertLWW, List.lookup]
  · intro stats k h
    rcases mem_keys_buildStatsMap_aux stats [] k (by simpa [buildStatsMap] using h)
      with h1 | h1
    · simp at h1
    · exact h1
  · rw [fetchPlayers]
    have h1 : getPlayersByTeam (strToUpper "bos") [⟨1, "bos", 20⟩] =
        [⟨1, "bos", 20⟩] := by decide
    rw [h1]
    exact List.mergeSort_singleton _

/-- C9 witness: the verbatim-keys clause applied to the lowercase row —
the only stored key is the row's own "bos". -/
theorem C9_key_normalization_witness :
    "bos" ∈ ([⟨"bos", 1, 110, 105⟩] : List TeamStats).map TeamStats.abbr :=
  C9_key_normalization.2.2.1 [⟨"bos", 1, 110, 105⟩] "bos" (by decide)
